import Mathlib

/-!
Verification of the GitHub MCP retrieval-and-orchestration pipeline
(`src/server.py`, `src/client.py`).

Python strings are modelled as lists of characters (`PyStr`), so that the
string operations the code uses (`endswith`, `strip`, substring tests via
the `in` operator, slicing) become plain list operations.  Python `None`
values are `Option.none`; a Python function that may raise maps to
`Except PyStr` with the exception message as payload.  HTTP traffic and
the language-model provider are oracles passed in as parameters.
-/

/-- Python strings as sequences of characters. -/
abbrev PyStr := List Char

/-- Coerce a Lean string literal to the `PyStr` model. -/
def pystr (s : String) : PyStr := s.data

/-- Python truth test for the whitespace characters stripped by `str.strip()`
    (ASCII fragment of `str.isspace`). -/
def isPySpace (c : Char) : Bool :=
  c = ' ' || c = '\t' || c = '\n' || c = '\r' || c = '\x0b' || c = '\x0c'

/-- Python `s.strip()`: remove whitespace from both ends. -/
def pyStrip (s : PyStr) : PyStr :=
  ((s.dropWhile isPySpace).reverse.dropWhile isPySpace).reverse

/-- Python `s.lower()` (ASCII fragment). -/
def pyLower (s : PyStr) : PyStr := s.map Char.toLower

/-- `listStartsWith s pre = true` iff `pre` is a prefix of `s`. -/
def listStartsWith : PyStr → PyStr → Bool
  | _, [] => true
  | [], _ :: _ => false
  | a :: as, b :: bs => a = b && listStartsWith as bs

/-- Python `needle in hay` for strings: substring occurrence. -/
def containsSub : PyStr → PyStr → Bool
  | [], needle => listStartsWith [] needle
  | h :: t, needle => listStartsWith (h :: t) needle || containsSub t needle

/-- Python `s.endswith(suf)`. -/
def listEndsWith (s suf : PyStr) : Bool :=
  listStartsWith s.reverse suf.reverse

/-- Python `s.split(sep)` for a newline separator: `content.split(chr(10))`.
    Always returns at least one (possibly empty) piece, as in Python. -/
def pySplitNL : PyStr → List PyStr
  | [] => [[]]
  | c :: t =>
    let r := pySplitNL t
    if c = '\n' then [] :: r
    else
      match r with
      | [] => [[c]]
      | h :: rt => (c :: h) :: rt

/-! ## Server side: `src/server.py` — GitHubMCPServer -/

/-- One entry of the GitHub tree payload: the `path`, `type` and `size`
    keys read by `get_specific_repo_data` (`item[...]` not modelled beyond
    those three).  `entryType` models `item[...]` at key `type` (Lean
    reserves the word). -/
structure TreeEntry where
  path : PyStr
  entryType : PyStr
  size : Nat
deriving DecidableEq

/-- One element of `repo_data[...]` at key `files` built by
    `get_specific_repo_data`. -/
structure FileRecord where
  path : PyStr
  content : PyStr
  size : Nat
deriving DecidableEq

/-- The dictionary returned by `get_specific_repo_data` (`server.py` line
    52): username, repository, and the accumulated file list.  Note the
    type has no error field of any kind: the function always returns this
    shape. -/
structure RepoData where
  username : PyStr
  repository : PyStr
  files : List FileRecord
deriving DecidableEq

/-- The HTTP response observed by `get_repo_tree`: a status code and the
    `tree` field of the decoded JSON body (defaulting to `[]` via
    `tree_data.get`, folded into the payload here). -/
structure TreeResponse where
  status : Nat
  treePayload : List TreeEntry
deriving DecidableEq

/-- `server.py` lines 40-49: `get_repo_tree` returns the tree payload on
    HTTP 200 and the empty list on every other status. -/
def get_repo_tree (resp : TreeResponse) : List TreeEntry :=
  if resp.status = 200 then resp.treePayload else []

/-- The extension tuple of `server.py` line 59, as passed to
    `item[...].endswith(...)`. -/
def allowedExtensions : List PyStr :=
  [pystr ".py", pystr ".js", pystr ".ts", pystr ".java", pystr ".cpp",
   pystr ".c", pystr ".go", pystr ".rs", pystr ".php", pystr ".rb",
   pystr ".swift", pystr ".kt", pystr ".md", pystr ".txt", pystr ".json",
   pystr ".yaml", pystr ".yml", pystr ".html", pystr ".css", pystr ".sql",
   pystr ".csv"]

/-- The filter of `server.py` lines 59-60 as a single predicate: blob
    entry, allow-listed extension, size strictly below 50000. -/
def eligible (item : TreeEntry) : Bool :=
  item.entryType = pystr "blob"
    && allowedExtensions.any (fun e => listEndsWith item.path e)
    && item.size < 50000

/-- The paths of the tree entries that pass the filter, in tree order. -/
def eligibleSet (tree : List TreeEntry) : List PyStr :=
  (tree.filter eligible).map (fun item => item.path)

/-- The `for item in tree` loop of `server.py` lines 58-67.  For each
    entry it mirrors the two nested `if`s (blob-and-extension, then size),
    fetches the content through the oracle `fetchContent` (modelling
    `self.get_file_content`, whose every return path yields a string), and
    appends a record only when the content is truthy, i.e. non-empty. -/
def loadFiles : List TreeEntry → (PyStr → PyStr) → List FileRecord
  | [], _ => []
  | item :: rest, fetchContent =>
    if item.entryType = pystr "blob"
        ∧ allowedExtensions.any (fun e => listEndsWith item.path e) then
      if item.size < 50000 then
        let content := fetchContent item.path
        if content ≠ [] then
          { path := item.path, content := content, size := item.size }
            :: loadFiles rest fetchContent
        else loadFiles rest fetchContent
      else loadFiles rest fetchContent
    else loadFiles rest fetchContent

/-- `server.py` lines 51-69: `get_specific_repo_data` builds the repo-data
    dictionary from the fetched tree. -/
def get_specific_repo_data (username repo_name : PyStr)
    (tree : List TreeEntry) (fetchContent : PyStr → PyStr) : RepoData :=
  { username := username, repository := repo_name,
    files := loadFiles tree fetchContent }

/-- The whole `load` path of the `get_repo_data` tool: fetch the tree
    (through `get_repo_tree` applied to the HTTP response) and then run
    `get_specific_repo_data` over it. -/
def load (username repo_name : PyStr) (resp : TreeResponse)
    (fetchContent : PyStr → PyStr) : RepoData :=
  get_specific_repo_data username repo_name (get_repo_tree resp) fetchContent

/-- The sequence of upstream operations awaited by the loop of
    `get_specific_repo_data`, in execution order.  `fetchFile` marks one
    `await self.get_file_content(...)`; `sleepMs` would mark an
    `await asyncio.sleep(...)`, but the source contains no such call, so
    the trace builder below never emits one. -/
inductive LoadEvent where
  | fetchFile (path : PyStr)
  | sleepMs (ms : Nat)
deriving DecidableEq

/-- `true` for a file-fetch event, `false` for a suspension. -/
def LoadEvent.isFetch : LoadEvent → Bool
  | fetchFile _ => true
  | sleepMs _ => false

/-- The trace of upstream operations performed by the loop of
    `get_specific_repo_data` (`server.py` lines 58-67): one content fetch
    per eligible entry, issued one at a time in tree order, with no
    suspension anywhere. -/
def loadEvents : List TreeEntry → List LoadEvent
  | [] => []
  | item :: rest =>
    if item.entryType = pystr "blob"
        ∧ allowedExtensions.any (fun e => listEndsWith item.path e) then
      if item.size < 50000 then
        LoadEvent.fetchFile item.path :: loadEvents rest
      else loadEvents rest
    else loadEvents rest

/-! ## Client side: `src/client.py` — GitHubFastMCPClient -/

/-- `client.py` lines 190-201, the tail of `llm_call_decide_files` after
    the raw model response has been parsed into `file_paths`: keep the
    parsed paths present in `available_files`, fall back to the first
    three available paths when nothing validated but something was parsed,
    and cap the result at five entries. -/
def decideFiles (file_paths available_files : List PyStr) : List PyStr :=
  let valid_files := file_paths.filter (fun f => available_files.contains f)
  let valid_files2 :=
    if valid_files = [] ∧ file_paths ≠ [] then available_files.take 3
    else valid_files
  valid_files2.take 5

/-- `client.py` line 222: the content string actually placed into the
    phase-2 context.  When the content exceeds 5000 characters it becomes
    the first 5000 characters followed by a three-character ellipsis. -/
def truncateContent (content : PyStr) : PyStr :=
  if content.length > 5000 then content.take 5000 ++ pystr "..."
  else content

/-- The f-string header opening a file section in the phase-2 context
    (`client.py` line 220). -/
def fileHeader (p : PyStr) : PyStr :=
  pystr "=== FILE: " ++ p ++ pystr " ==="

/-- The f-string footer closing a file section (`client.py` line 224). -/
def fileFooter (p : PyStr) : PyStr :=
  pystr "=== END FILE: " ++ p ++ pystr " ===" ++ pystr "\n"

/-- The per-file part of the `context_parts` list built by
    `llm_call_final_answer` (`client.py` lines 218-224): iterate the
    `files_content` dictionary (an ordered association list here) and, for
    each entry whose content is truthy and strips to something non-empty,
    append header, truncated content and footer; blank entries append
    nothing, and nothing else is recorded about them. -/
def fileSections : List (PyStr × PyStr) → List PyStr
  | [] => []
  | (p, c) :: rest =>
    (if c ≠ [] ∧ pyStrip c ≠ [] then
      [fileHeader p, truncateContent c, fileFooter p]
     else []) ++ fileSections rest

/-- Decimal rendering of a number interpolated into an f-string. -/
def natToPyStr (n : Nat) : PyStr := (toString n).data

/-- The leading parts of `context_parts` (`client.py` lines 211-215):
    the user question, the repository line and the total-files line, with
    the summary fields passed in directly. -/
def contextMeta (user_question username repo_name : PyStr)
    (total_files : Nat) : List PyStr :=
  [pystr "User question: " ++ user_question ++ pystr "\n",
   pystr "Repository: " ++ username ++ pystr "/" ++ repo_name,
   pystr "Total files analyzed: " ++ natToPyStr total_files ++ pystr "\n"]

/-- The full `context_parts` list of `llm_call_final_answer` just before
    it is joined with newlines into `final_context`. -/
def buildContextParts (user_question username repo_name : PyStr)
    (total_files : Nat) (files_content : List (PyStr × PyStr)) :
    List PyStr :=
  contextMeta user_question username repo_name total_files
    ++ fileSections files_content

/-! ### Description assignment (`client.py`, `analyze_file_content`) -/

/-- Python `s.rfind(c)`: index of the last occurrence, `-1` if absent. -/
def lastIndexOfAux (c : Char) : PyStr → Nat → Int → Int
  | [], _, acc => acc
  | x :: xs, i, acc =>
    lastIndexOfAux c xs (i + 1) (if x = c then (i : Int) else acc)

/-- Python `s.rfind(c)` over the character-list model. -/
def lastIndexOf (s : PyStr) (c : Char) : Int :=
  lastIndexOfAux c s 0 (-1)

/-- The extension component of `os.path.splitext(p)` for POSIX paths: the
    slice from the last dot onward, provided that dot comes after the last
    separator and the basename does not consist solely of leading dots up
    to it; the empty string otherwise. -/
def splitextExt (p : PyStr) : PyStr :=
  let sepIndex := lastIndexOf p '/'
  let dotIndex := lastIndexOf p '.'
  if sepIndex < dotIndex then
    let base := (p.drop (sepIndex + 1).toNat).take (dotIndex - sepIndex - 1).toNat
    if base.any (fun ch => ch ≠ '.') then p.drop dotIndex.toNat else []
  else []

/-- `client.py` lines 58-62: for a `.csv` file whose first line strips to
    something non-empty, the description pre-assigned before the
    filename-keyword chain runs; empty for everything else. -/
def csvColumnDefault (file_ext content : PyStr) : PyStr :=
  if file_ext = pystr ".csv" then
    match pySplitNL content with
    | [] => []
    | l0 :: _ =>
      if pyStrip l0 ≠ [] then
        pystr "CSV data file with columns: " ++ pyStrip l0
      else []
  else []

/-- The `description` field computed by `analyze_file_content`
    (`client.py` lines 38-83; the regex-extracted `functions`, `classes`
    and `imports` fields are independent of every claim and are not
    embedded).  The `.csv` branch pre-assigns `csvColumnDefault`, then the
    `if`/`elif` chain of lines 66-81 may overwrite it; when no branch of
    the chain matches, the pre-assigned value (possibly empty) stands. -/
def analyzeDescription (file_path content : PyStr) : PyStr :=
  let file_ext := pyLower (splitextExt file_path)
  let desc0 := csvColumnDefault file_ext content
  let filename_lower := pyLower file_path
  if containsSub filename_lower (pystr "main")
      || containsSub content (pystr "__main__") then
    pystr "Main application entry point"
  else if containsSub filename_lower (pystr "test") then
    pystr "Test file or testing data"
  else if containsSub filename_lower (pystr "train") then
    pystr "Training data or training script"
  else if containsSub filename_lower (pystr "model") then
    pystr "Machine learning model or data model"
  else if file_ext = pystr ".csv" && desc0.isEmpty then
    pystr "Data file in CSV format"
  else if file_ext = pystr ".md" then
    pystr "Documentation file"
  else if file_ext = pystr ".json" then
    pystr "Configuration or data file in JSON format"
  else if containsSub filename_lower (pystr "config") then
    pystr "Configuration file"
  else desc0

/-- First-match-wins evaluation of an ordered rule list: the result of
    the first rule whose condition holds, or the default. -/
def firstMatch : List (Bool × PyStr) → PyStr → PyStr
  | [], dflt => dflt
  | (cond, r) :: rest, dflt => if cond then r else firstMatch rest dflt

/-- The description rule list exactly as the claim words it: filename
    keywords `main`/`test`/`train`/`model` first, then extension defaults
    (CSV column-header description, Markdown, JSON, `config` filename),
    with an empty description when nothing matches.  Written from the
    claim, to be compared against `analyzeDescription`. -/
def claimedDescription (file_path content : PyStr) : PyStr :=
  let file_ext := pyLower (splitextExt file_path)
  let filename_lower := pyLower file_path
  firstMatch
    [(containsSub filename_lower (pystr "main"),
        pystr "Main application entry point"),
     (containsSub filename_lower (pystr "test"),
        pystr "Test file or testing data"),
     (containsSub filename_lower (pystr "train"),
        pystr "Training data or training script"),
     (containsSub filename_lower (pystr "model"),
        pystr "Machine learning model or data model"),
     (file_ext = pystr ".csv", csvColumnDefault file_ext content),
     (file_ext = pystr ".md", pystr "Documentation file"),
     (file_ext = pystr ".json",
        pystr "Configuration or data file in JSON format"),
     (containsSub filename_lower (pystr "config"),
        pystr "Configuration file")]
    []

/-- The description rules as the code actually orders them, written in
    rule-list form for the amended claim: rule 1 also fires when the file
    content mentions the dunder-main guard, the generic CSV description
    applies only when no column-header description was pre-assigned, and
    the pre-assigned CSV column-header description is the default when no
    rule matches. -/
def amendedDescription (file_path content : PyStr) : PyStr :=
  let file_ext := pyLower (splitextExt file_path)
  let desc0 := csvColumnDefault file_ext content
  let filename_lower := pyLower file_path
  firstMatch
    [(containsSub filename_lower (pystr "main")
        || containsSub content (pystr "__main__"),
        pystr "Main application entry point"),
     (containsSub filename_lower (pystr "test"),
        pystr "Test file or testing data"),
     (containsSub filename_lower (pystr "train"),
        pystr "Training data or training script"),
     (containsSub filename_lower (pystr "model"),
        pystr "Machine learning model or data model"),
     (file_ext = pystr ".csv" && desc0.isEmpty,
        pystr "Data file in CSV format"),
     (file_ext = pystr ".md", pystr "Documentation file"),
     (file_ext = pystr ".json",
        pystr "Configuration or data file in JSON format"),
     (containsSub filename_lower (pystr "config"),
        pystr "Configuration file")]
    desc0

/-! ## JSON-RPC dispatch (`server.py`, `handle_request` and `run_stdio`) -/

/-- The `arguments` dictionary of a `tools/call` request, restricted to
    the three keys the handlers subscript; a missing key is `none` and
    subscripting it raises `KeyError`. -/
structure ToolArguments where
  username : Option PyStr
  repo_name : Option PyStr
  file_path : Option PyStr
deriving DecidableEq

/-- A parsed JSON-RPC request as `handle_request` reads it:
    `request.get` at the keys `method` and `id`, and `params.get` at
    `name` plus the `arguments` dictionary.  `rid` is `none` when the
    request carries no id. -/
structure RpcRequest where
  method : PyStr
  rid : Option Int
  toolName : Option PyStr
  toolArgs : ToolArguments
deriving DecidableEq

/-- The oracles behind the two tool handlers: `get_specific_repo_data`
    and `get_file_content` as invoked from `handle_request`, either
    returning their value or raising an exception whose message is the
    payload of `Except.error`. -/
structure Effects where
  repoDataImpl : PyStr → PyStr → Except PyStr RepoData
  fileContentImpl : PyStr → PyStr → PyStr → Except PyStr PyStr

/-- The `result`/`error` alternatives `handle_request` can build.
    `repoDataText` carries the repo data serialized into the single text
    content item; `fileContentText` carries the fetched string. -/
inductive RespBody where
  | initCaps
  | toolsList
  | repoDataText (d : RepoData)
  | fileContentText (s : PyStr)
  | rpcError (code : Int) (message : PyStr)
deriving DecidableEq

/-- One JSON-RPC response dictionary: the echoed request id and the
    result or error body. -/
structure RpcResponse where
  rid : Option Int
  body : RespBody
deriving DecidableEq

/-- Python `arguments[key]`: the value when present, a `KeyError`
    exception naming the key otherwise. -/
def getArg (v : Option PyStr) (key : PyStr) : Except PyStr PyStr :=
  match v with
  | some s => Except.ok s
  | none => Except.error (pystr "KeyError: " ++ key)

/-- `server.py` lines 71-147.  The `if`/`elif` dispatch on `method` and,
    under `tools/call`, on the tool name; the `try`/`except` around the
    whole body turns any exception into an `error` response with code
    `-1` and the original request id.  No branch matches an unknown
    method or an unknown tool name, so those fall off the end of the
    function and return Python `None` — modelled as `Option.none`. -/
def handle_request (eff : Effects) (req : RpcRequest) : Option RpcResponse :=
  if req.method = pystr "initialize" then
    some { rid := req.rid, body := RespBody.initCaps }
  else if req.method = pystr "tools/list" then
    some { rid := req.rid, body := RespBody.toolsList }
  else if req.method = pystr "tools/call" then
    if req.toolName = some (pystr "get_repo_data") then
      match (do
        let u ← getArg req.toolArgs.username (pystr "username")
        let r ← getArg req.toolArgs.repo_name (pystr "repo_name")
        eff.repoDataImpl u r : Except PyStr RepoData) with
      | Except.ok d =>
        some { rid := req.rid, body := RespBody.repoDataText d }
      | Except.error m =>
        some { rid := req.rid, body := RespBody.rpcError (-1) m }
    else if req.toolName = some (pystr "get_file_content") then
      match (do
        let u ← getArg req.toolArgs.username (pystr "username")
        let r ← getArg req.toolArgs.repo_name (pystr "repo_name")
        let p ← getArg req.toolArgs.file_path (pystr "file_path")
        eff.fileContentImpl u r p : Except PyStr PyStr) with
      | Except.ok s =>
        some { rid := req.rid, body := RespBody.fileContentText s }
      | Except.error m =>
        some { rid := req.rid, body := RespBody.rpcError (-1) m }
    else none
  else none

/-- The read loop of `run_stdio` (`server.py` lines 153-163) over a
    finite input.  Each element of `input` is the parse outcome of one
    line: `none` when `json.loads` raised or the value was not a request
    dictionary (the bare `except` skips the line and the loop continues),
    `some req` for a parsed request.  For every parsed request exactly one
    line is printed before the next line is read; a printed `none` is the
    literal text `null` (`json.dumps` of Python `None`). -/
def run_stdio (eff : Effects) :
    List (Option RpcRequest) → List (Option RpcResponse)
  | [] => []
  | none :: rest => run_stdio eff rest
  | some req :: rest => handle_request eff req :: run_stdio eff rest

/-- `true` exactly for the requests that reach one of the response-
    building branches of `handle_request`: the three known methods, and
    under `tools/call` one of the two registered tool names. -/
def knownRequest (req : RpcRequest) : Bool :=
  req.method = pystr "initialize" || req.method = pystr "tools/list"
    || (req.method = pystr "tools/call"
        && (req.toolName = some (pystr "get_repo_data")
            || req.toolName = some (pystr "get_file_content")))

/-- A concrete effects instance whose tools always succeed. -/
def stubEffects : Effects where
  repoDataImpl := fun u r =>
    Except.ok { username := u, repository := r, files := [] }
  fileContentImpl := fun _ _ _ => Except.ok []

/-- A concrete effects instance whose tools always raise. -/
def failEffects : Effects where
  repoDataImpl := fun _ _ => Except.error (pystr "boom")
  fileContentImpl := fun _ _ _ => Except.error (pystr "boom")

/-! ## Helper lemmas -/

/-- Every file record accumulated by the loader loop has non-empty
    content: the `if content:` test guards each append. -/
theorem loadFiles_content_ne_nil (tree : List TreeEntry)
    (fetchContent : PyStr → PyStr) :
    ∀ f ∈ loadFiles tree fetchContent, f.content ≠ [] := by
  induction tree with
  | nil => simp [loadFiles]
  | cons item rest ih =>
    intro f hf
    unfold loadFiles at hf
    split at hf
    · split at hf
      · by_cases h3 : fetchContent item.path ≠ []
        · rw [if_pos h3] at hf
          rcases List.mem_cons.mp hf with h | h
          · subst h
            simpa using h3
          · exact ih f h
        · rw [if_neg h3] at hf
          exact ih f hf
      · exact ih f hf
    · exact ih f hf

/-- Every file record the loader keeps comes from an eligible tree
    entry. -/
theorem loadFiles_path_eligible (tree : List TreeEntry)
    (fetchContent : PyStr → PyStr) :
    ∀ f ∈ loadFiles tree fetchContent, f.path ∈ eligibleSet tree := by
  induction tree with
  | nil => simp [loadFiles]
  | cons item rest ih =>
    intro f hf
    unfold loadFiles at hf
    by_cases h1 : item.entryType = pystr "blob"
        ∧ (allowedExtensions.any (fun e => listEndsWith item.path e)) = true
    · rw [if_pos h1] at hf
      by_cases h2 : item.size < 50000
      · rw [if_pos h2] at hf
        have helig : eligible item = true := by
          simp [eligible, h1.1, h1.2, h2]
        by_cases h3 : fetchContent item.path ≠ []
        · simp only [if_pos h3] at hf
          rcases List.mem_cons.mp hf with h | h
          · subst h
            simp [eligibleSet, List.filter_cons, helig]
          · have := ih f h
            simp [eligibleSet, List.filter_cons, helig] at this ⊢
            exact Or.inr this
        · simp only [if_neg h3] at hf
          have := ih f hf
          simp [eligibleSet, List.filter_cons, helig] at this ⊢
          exact Or.inr this
      · rw [if_neg h2] at hf
        have helig : eligible item = false := by
          simp [eligible, h2]
        have := ih f hf
        simpa [eligibleSet, List.filter_cons, helig] using this
    · rw [if_neg h1] at hf
      have helig : eligible item = false := by
        simp only [eligible]
        rcases not_and_or.mp h1 with h | h <;> simp [h]
      have := ih f hf
      simpa [eligibleSet, List.filter_cons, helig] using this

/-- A `some` result of `handle_request` always echoes the request id. -/
theorem handle_request_rid (eff : Effects) (req : RpcRequest) :
    ∀ resp, handle_request eff req = some resp → resp.rid = req.rid := by
  intro resp h
  unfold handle_request at h
  repeat' split at h
  all_goals first
    | (injection h with h2; subst h2; rfl)
    | injection h

/-- `handle_request` produces a response on every known request. -/
theorem handle_request_known_isSome (eff : Effects) (req : RpcRequest)
    (h : knownRequest req = true) : (handle_request eff req).isSome = true := by
  unfold handle_request
  repeat' split
  all_goals simp_all [knownRequest]

/-! ## Claims -/

/-- C1 (corrected).  When the GitHub tree fetch returns any non-200
    status (for example HTTP 404), `get_repo_tree` returns the empty
    list and `load` returns a normal snapshot whose `files` sequence is
    empty; no error of any kind is produced (the result type of the load
    has no error representation), so an empty file sequence does not
    distinguish a failed tree fetch from a truly empty tree. -/
theorem c1_tree_fetch_failure_silent (username repo_name : PyStr)
    (resp : TreeResponse) (fetchContent : PyStr → PyStr)
    (h : resp.status ≠ 200) :
    get_repo_tree resp = [] ∧
    load username repo_name resp fetchContent =
      { username := username, repository := repo_name, files := [] } := by
  have ht : get_repo_tree resp = [] := by simp [get_repo_tree, h]
  exact ⟨ht, by simp [load, get_specific_repo_data, ht, loadFiles]⟩

/-- C1 witness: the amended statement at a concrete 404 response. -/
theorem c1_tree_fetch_failure_silent_witness :
    get_repo_tree { status := 404, treePayload := [] } = [] ∧
    load (pystr "octocat") (pystr "Hello-World")
        { status := 404, treePayload := [] } (fun _ => []) =
      { username := pystr "octocat", repository := pystr "Hello-World",
        files := [] } :=
  c1_tree_fetch_failure_silent (pystr "octocat") (pystr "Hello-World")
    { status := 404, treePayload := [] } (fun _ => []) (by decide)

/-- C1 counterexample.  The claim says an HTTP 404 on the tree endpoint
    makes `load` abort with a fatal error naming the owner/repo and that
    an empty file sequence is a non-error result only for a truly empty
    tree.  Here the fetched tree payload has one eligible entry, the
    status is 404, and `load` still returns an ordinary error-free
    snapshot with an empty `files` sequence. -/
theorem c1_counterexample :
    load (pystr "octocat") (pystr "Hello-World")
        { status := 404,
          treePayload :=
            [{ path := pystr "a.py", entryType := pystr "blob", size := 100 }] }
        (fun _ => pystr "data")
      = { username := pystr "octocat", repository := pystr "Hello-World",
          files := [] } := by decide

/-- C2 (corrected).  Every file record in a loaded snapshot has
    non-empty content: the loader only tests Python truthiness of the
    fetched string, so the empty string is excluded but whitespace-only
    content is retained. -/
theorem c2_snapshot_content_nonempty (username repo_name : PyStr)
    (resp : TreeResponse) (fetchContent : PyStr → PyStr) :
    ∀ f ∈ (load username repo_name resp fetchContent).files,
      f.content ≠ [] := by
  intro f hf
  exact loadFiles_content_ne_nil (get_repo_tree resp) fetchContent f hf

/-- C2 witness: the amended statement at a concrete snapshot. -/
theorem c2_snapshot_content_nonempty_witness :
    (⟨pystr "a.py", pystr "x", 100⟩ : FileRecord).content ≠ [] :=
  c2_snapshot_content_nonempty (pystr "u") (pystr "r")
    { status := 200,
      treePayload :=
        [{ path := pystr "a.py", entryType := pystr "blob", size := 100 }] }
    (fun _ => pystr "x")
    ⟨pystr "a.py", pystr "x", 100⟩ (by decide)

/-- C2 counterexample.  The claim says a fetched file whose content is
    whitespace-only is absent from the snapshot.  A single-space content
    string is truthy in Python, so the loader keeps it: the resulting
    snapshot contains a record whose content strips to nothing. -/
theorem c2_counterexample :
    (load (pystr "u") (pystr "r")
        { status := 200,
          treePayload :=
            [{ path := pystr "a.py", entryType := pystr "blob", size := 100 }] }
        (fun _ => pystr " ")).files
      = [{ path := pystr "a.py", content := pystr " ", size := 100 }]
    ∧ pyStrip (pystr " ") = [] := by decide

/-- C3 (confirmed).  A tree entry passes the loader's filter exactly
    when it is a blob, its path ends with an allow-listed extension, and
    its size is strictly below 50000; every record the loader keeps comes
    from such an entry; and on the two-entry example tree the eligible
    set is exactly the Python file. -/
theorem c3_eligible_filter :
    (∀ item : TreeEntry,
      eligible item = true ↔
        item.entryType = pystr "blob"
          ∧ (∃ e ∈ allowedExtensions, listEndsWith item.path e = true)
          ∧ item.size < 50000) ∧
    (∀ (tree : List TreeEntry) (fetchContent : PyStr → PyStr),
      ∀ f ∈ loadFiles tree fetchContent, f.path ∈ eligibleSet tree) ∧
    eligibleSet
        [{ path := pystr "a.py", entryType := pystr "blob", size := 100 },
         { path := pystr "img.png", entryType := pystr "blob", size := 100 }]
      = [pystr "a.py"] := by
  refine ⟨?_, loadFiles_path_eligible, by decide⟩
  intro item
  simp [eligible, List.any_eq_true, and_assoc]

/-- C3 witness: the filter characterization and snapshot membership at
    concrete inputs. -/
theorem c3_eligible_filter_witness :
    eligible { path := pystr "a.py", entryType := pystr "blob", size := 100 }
      = true
    ∧ (⟨pystr "a.py", pystr "x", 100⟩ : FileRecord).path ∈
        eligibleSet
          [{ path := pystr "a.py", entryType := pystr "blob", size := 100 }] :=
  ⟨by decide,
   c3_eligible_filter.2.1
     [{ path := pystr "a.py", entryType := pystr "blob", size := 100 }]
     (fun _ => pystr "x")
     ⟨pystr "a.py", pystr "x", 100⟩ (by decide)⟩

/-- C4 (corrected).  The loader's upstream trace over any tree is one
    file fetch per eligible entry, issued strictly one at a time in tree
    order; it contains no suspension event of any duration, so there is
    no batch pacing at all. -/
theorem c4_sequential_no_pacing (tree : List TreeEntry) :
    loadEvents tree
      = (tree.filter eligible).map (fun item => LoadEvent.fetchFile item.path)
    ∧ (loadEvents tree).all LoadEvent.isFetch = true := by
  have hmain : loadEvents tree
      = (tree.filter eligible).map
          (fun item => LoadEvent.fetchFile item.path) := by
    induction tree with
    | nil => rfl
    | cons item rest ih =>
      by_cases h1 : item.entryType = pystr "blob"
          ∧ (allowedExtensions.any (fun e => listEndsWith item.path e)) = true
      · by_cases h2 : item.size < 50000
        · have helig : eligible item = true := by
            simp [eligible, h1.1, h1.2, h2]
          simp [loadEvents, h1, h2, List.filter_cons, helig, ih]
        · have helig : eligible item = false := by simp [eligible, h2]
          simp [loadEvents, h1, h2, List.filter_cons, helig, ih]
      · have helig : eligible item = false := by
          simp only [eligible]
          rcases not_and_or.mp h1 with h | h <;> simp [h]
        simp [loadEvents, h1, List.filter_cons, helig, ih]
        intro hb x hx hends
        exact absurd ⟨hb, List.any_eq_true.mpr ⟨x, hx, hends⟩⟩ h1
  refine ⟨hmain, ?_⟩
  rw [hmain, List.all_eq_true]
  intro x hx
  rcases List.mem_map.mp hx with ⟨item, hmem, rfl⟩
  rfl

/-- C4 counterexample.  The claim requires the loader to fetch in
    batches of exactly five and to suspend about 200ms after every
    completed batch; with six eligible files that would force at least
    one suspension event between the fifth and the sixth fetch.  The
    actual trace on a six-file tree is six consecutive fetches, one at a
    time, with no suspension event anywhere. -/
theorem c4_counterexample :
    loadEvents
        [{ path := pystr "a1.py", entryType := pystr "blob", size := 10 },
         { path := pystr "a2.py", entryType := pystr "blob", size := 10 },
         { path := pystr "a3.py", entryType := pystr "blob", size := 10 },
         { path := pystr "a4.py", entryType := pystr "blob", size := 10 },
         { path := pystr "a5.py", entryType := pystr "blob", size := 10 },
         { path := pystr "a6.py", entryType := pystr "blob", size := 10 }]
      = [LoadEvent.fetchFile (pystr "a1.py"),
         LoadEvent.fetchFile (pystr "a2.py"),
         LoadEvent.fetchFile (pystr "a3.py"),
         LoadEvent.fetchFile (pystr "a4.py"),
         LoadEvent.fetchFile (pystr "a5.py"),
         LoadEvent.fetchFile (pystr "a6.py")] := by decide

/-- C5 counterexample.  The claim says every file content string placed
    into a phase-2 prompt is at most 5000 characters.  A 5001-character
    content is truncated to its first 5000 characters plus a
    three-character ellipsis, i.e. 5003 characters. -/
theorem c5_counterexample :
    (truncateContent (List.replicate 5001 'a')).length = 5003 := by
  have h : (List.replicate 5001 'a').length > 5000 := by
    rw [List.length_replicate]
    omega
  rw [truncateContent, if_pos h, List.length_append, List.length_take,
    List.length_replicate]
  rfl

/-- C5 (corrected).  The content string placed into a phase-2 file
    section is at most 5003 characters (the 5000-character budget plus
    the appended ellipsis when truncation fires), and the file selection
    returned by phase 1 — the list passed on to phase 2 — has at most
    five entries. -/
theorem c5_truncation_bounds :
    (∀ content : PyStr, (truncateContent content).length ≤ 5003) ∧
    (∀ file_paths available_files : List PyStr,
      (decideFiles file_paths available_files).length ≤ 5) := by
  constructor
  · intro c
    by_cases h : c.length > 5000
    · rw [truncateContent, if_pos h, List.length_append, List.length_take]
      have : (pystr "...").length = 3 := rfl
      omega
    · rw [truncateContent, if_neg h]
      omega
  · intro fps av
    simp only [decideFiles]
    exact List.length_take_le 5 _

/-- C6 (confirmed).  Every path in a phase-1 selection is a member of
    the available file list; and when the parsed paths are non-empty but
    none of them validates against the available list, the result is
    exactly the first three available paths, hence has at most three
    entries. -/
theorem c6_phase1_validation :
    (∀ (file_paths available_files : List PyStr) (p : PyStr),
      p ∈ decideFiles file_paths available_files → p ∈ available_files) ∧
    (∀ file_paths available_files : List PyStr,
      file_paths ≠ [] →
      (∀ p ∈ file_paths, available_files.contains p = false) →
      decideFiles file_paths available_files = available_files.take 3 ∧
      (decideFiles file_paths available_files).length ≤ 3) := by
  constructor
  · intro fps av p hp
    simp only [decideFiles] at hp
    have hp' := List.mem_of_mem_take hp
    by_cases hc : fps.filter (fun f => av.contains f) = [] ∧ fps ≠ []
    · rw [if_pos hc] at hp'
      exact List.mem_of_mem_take hp'
    · rw [if_neg hc] at hp'
      have := List.mem_filter.mp hp'
      simpa using this.2
  · intro fps av hne hall
    have hfil : fps.filter (fun f => av.contains f) = [] := by
      rw [List.filter_eq_nil_iff]
      intro p hp hmemAv
      have hc : av.contains p = true := by simpa using hmemAv
      rw [hall p hp] at hc
      exact Bool.noConfusion hc
    have heq : decideFiles fps av = av.take 3 := by
      simp only [decideFiles, hfil]
      rw [if_pos (And.intro trivial hne), List.take_take]
      norm_num
    exact ⟨heq, by rw [heq]; exact List.length_take_le 3 _⟩

/-- C6 witness: a parsed path that does not validate falls back to the
    first three available paths. -/
theorem c6_phase1_validation_witness :
    decideFiles [pystr "x.py"]
        [pystr "a.py", pystr "b.py", pystr "c.py", pystr "d.py"]
      = [pystr "a.py", pystr "b.py", pystr "c.py", pystr "d.py"].take 3
    ∧ (decideFiles [pystr "x.py"]
        [pystr "a.py", pystr "b.py", pystr "c.py", pystr "d.py"]).length ≤ 3 :=
  c6_phase1_validation.2 [pystr "x.py"]
    [pystr "a.py", pystr "b.py", pystr "c.py", pystr "d.py"]
    (by decide) (by decide)

/-- C9 counterexample.  The claim's rule list assigns descriptions only
    from the filename and the extension; a file named `app.py` matches
    none of its rules, so the claim predicts an empty description.  The
    code additionally fires the entry-point rule when the file content
    contains the dunder-main guard, so this file gets the entry-point
    description. -/
theorem c9_counterexample :
    analyzeDescription (pystr "app.py") (pystr "x = 1 # __main__")
      = pystr "Main application entry point"
    ∧ claimedDescription (pystr "app.py") (pystr "x = 1 # __main__")
      = [] := by decide

/-- C9 (corrected).  The description is assigned by the fixed ordered
    rule list of `amendedDescription`, evaluated top to bottom with the
    first matching rule winning: (1) filename contains `main` or the
    content contains the dunder-main guard; (2) filename contains `test`;
    (3) `train`; (4) `model`; (5) `.csv` extension with no pre-assigned
    column-header description; (6) `.md`; (7) `.json`; (8) filename
    contains `config`; default: the CSV column-header description
    derived from the file's first line when the extension is `.csv` and
    that line is non-blank, otherwise the empty description. -/
theorem c9_description_rules (file_path content : PyStr) :
    analyzeDescription file_path content
      = amendedDescription file_path content := by
  simp only [analyzeDescription, amendedDescription, firstMatch,
    decide_eq_true_eq]

/-- C10 (confirmed).  Building the phase-2 context silently drops every
    selected file whose fetched content is empty or whitespace-only:
    filtering those entries out of the input leaves the emitted file
    sections unchanged (they contribute no parts and no error or warning
    part is recorded), the context is exactly the meta parts followed by
    the file sections, and every non-blank entry does get its header. -/
theorem c10_blank_files_omitted :
    (∀ files_content : List (PyStr × PyStr),
      fileSections files_content =
        fileSections (files_content.filter
          (fun pc => decide (pc.2 ≠ [] ∧ pyStrip pc.2 ≠ [])))) ∧
    (∀ (q u r : PyStr) (t : Nat) (files_content : List (PyStr × PyStr)),
      buildContextParts q u r t files_content =
        contextMeta q u r t ++ fileSections files_content) ∧
    (∀ (files_content : List (PyStr × PyStr)) (p c : PyStr),
      (p, c) ∈ files_content → c ≠ [] → pyStrip c ≠ [] →
      fileHeader p ∈ fileSections files_content) := by
  refine ⟨?_, fun _ _ _ _ _ => rfl, ?_⟩
  · intro fc
    induction fc with
    | nil => rfl
    | cons pc rest ih =>
      obtain ⟨p, c⟩ := pc
      by_cases h : c ≠ [] ∧ pyStrip c ≠ []
      · simp [fileSections, List.filter_cons, h, ih]
      · simp [fileSections, List.filter_cons, h, ih]
  · intro fc p c
    induction fc with
    | nil =>
      intro h _ _
      simp at h
    | cons pc rest ih =>
      intro hmem hne hstrip
      obtain ⟨q0, c0⟩ := pc
      rcases List.mem_cons.mp hmem with h | h
      · simp only [Prod.mk.injEq] at h
        obtain ⟨rfl, rfl⟩ := h
        simp only [fileSections]
        rw [if_pos (And.intro hne hstrip)]
        exact List.mem_append_left _ (by simp)
      · have hr := ih h hne hstrip
        simp only [fileSections]
        by_cases hc : c0 ≠ [] ∧ pyStrip c0 ≠ []
        · rw [if_pos hc]
          exact List.mem_append_right _ hr
        · rw [if_neg hc]
          simpa using hr

/-- C7 counterexample.  The claim says every parsed request with id N —
    including unknown methods — gets exactly one response line whose id
    equals N.  For a request with an unknown method the dispatch falls
    off the end of `handle_request` and returns Python `None`, so the
    single line the server prints for request id 7 is the literal
    `null`, which carries no id at all. -/
theorem c7_counterexample :
    run_stdio stubEffects
        [some { method := pystr "frobnicate", rid := some 7, toolName := none,
                toolArgs := { username := none, repo_name := none,
                              file_path := none } }]
      = [none] := by decide

/-- C7 (corrected).  The loop writes exactly one line per parsed request,
    in request order, before reading further input (the outputs are the
    dispatch results of the parsed requests, in order); and for every
    known request — `initialize`, `tools/list`, or `tools/call` naming
    one of the two registered tools — that line is a response carrying
    the request's own id.  Unknown methods and unknown tool names instead
    produce the id-less line `null`. -/
theorem c7_one_response_per_request :
    (∀ (eff : Effects) (input : List (Option RpcRequest)),
      run_stdio eff input = (input.filterMap id).map (handle_request eff)) ∧
    (∀ (eff : Effects) (req : RpcRequest), knownRequest req = true →
      ∃ resp, handle_request eff req = some resp ∧ resp.rid = req.rid) := by
  constructor
  · intro eff input
    induction input with
    | nil => rfl
    | cons l rest ih =>
      cases l with
      | none => simpa [run_stdio, List.filterMap_cons] using ih
      | some req => simpa [run_stdio, List.filterMap_cons] using ih
  · intro eff req h
    have hs := handle_request_known_isSome eff req h
    rcases Option.isSome_iff_exists.mp hs with ⟨resp, hresp⟩
    exact ⟨resp, hresp, handle_request_rid eff req resp hresp⟩

/-- C7 witness: a known request (`initialize`, id 3) yields a response
    echoing id 3. -/
theorem c7_one_response_per_request_witness :
    ∃ resp,
      handle_request stubEffects
          { method := pystr "initialize", rid := some 3, toolName := none,
            toolArgs := { username := none, repo_name := none,
                          file_path := none } }
        = some resp
      ∧ resp.rid = some 3 :=
  c7_one_response_per_request.2 stubEffects
    { method := pystr "initialize", rid := some 3, toolName := none,
      toolArgs := { username := none, repo_name := none, file_path := none } }
    (by decide)

/-- C8 (confirmed).  A line that fails to parse as a JSON-RPC request is
    silently skipped and the loop continues with the remaining input
    unchanged; and an exception raised inside the `get_repo_data` handler
    is caught and answered as a JSON-RPC error response with code `-1`
    and the exception message, keyed to the original request id — the
    loop itself never sees the fault. -/
theorem c8_fault_tolerance :
    (∀ (eff : Effects) (rest : List (Option RpcRequest)),
      run_stdio eff (none :: rest) = run_stdio eff rest) ∧
    (∀ (eff : Effects) (req : RpcRequest) (u r msg : PyStr),
      req.method = pystr "tools/call" →
      req.toolName = some (pystr "get_repo_data") →
      req.toolArgs.username = some u →
      req.toolArgs.repo_name = some r →
      eff.repoDataImpl u r = Except.error msg →
      handle_request eff req
        = some { rid := req.rid, body := RespBody.rpcError (-1) msg }) := by
  constructor
  · intro eff rest
    rfl
  · intro eff req u r msg hm ht hu hr hfail
    unfold handle_request
    rw [hm, if_neg (by decide), if_neg (by decide), if_pos rfl, ht,
      if_pos rfl, hu, hr]
    show (match eff.repoDataImpl u r with
      | Except.ok d =>
          some (RpcResponse.mk req.rid (RespBody.repoDataText d))
      | Except.error m =>
          some (RpcResponse.mk req.rid (RespBody.rpcError (-1) m)))
      = some (RpcResponse.mk req.rid (RespBody.rpcError (-1) msg))
    rw [hfail]

/-- C8 witness: a malformed line before a well-formed session is skipped,
    and a concrete failing fetch is answered as a code `-1` error. -/
theorem c8_fault_tolerance_witness :
    run_stdio failEffects [none] = run_stdio failEffects [] ∧
    handle_request failEffects
        { method := pystr "tools/call", rid := some 9,
          toolName := some (pystr "get_repo_data"),
          toolArgs := { username := some (pystr "u"),
                        repo_name := some (pystr "r"), file_path := none } }
      = some { rid := some 9,
               body := RespBody.rpcError (-1) (pystr "boom") } :=
  ⟨c8_fault_tolerance.1 failEffects [],
   c8_fault_tolerance.2 failEffects
     { method := pystr "tools/call", rid := some 9,
       toolName := some (pystr "get_repo_data"),
       toolArgs := { username := some (pystr "u"),
                     repo_name := some (pystr "r"), file_path := none } }
     (pystr "u") (pystr "r") (pystr "boom") rfl rfl rfl rfl rfl⟩

/-- C10 witness: a selected file with non-blank content receives its
    header section in the built context. -/
theorem c10_blank_files_omitted_witness :
    fileHeader (pystr "a.py") ∈ fileSections [(pystr "a.py", pystr "x")] :=
  c10_blank_files_omitted.2.2 [(pystr "a.py", pystr "x")] (pystr "a.py")
    (pystr "x") (by decide) (by decide) (by decide)
